import Mathlib

/-!
Verification of `thread_scaling/scripts/master.py` (thread-scaling benchmark
driver).  Each Python function that the claims touch is embedded as a Lean
definition mirroring the source control flow; external effects (filesystem,
child processes) are parameters (probes / oracles) or event traces.
Machine integers are `Nat`/`Int`; the script runs under Python 2 semantics
(`i /= 26` is floor division there), so integer division is `Nat` division.
-/

namespace Master

/-! ## slice_lab (master.py lines 129-139)

`slice_lab(i)` converts a slice index to the 3-character suffix that
`split -a 3` uses: repeated divmod by 26 over the alphabet `a..z`, then the
result is left-padded with `'a'` to length 3, and `assert len(ret) == 3`.
The while loop is embedded with a fuel argument; fuel `i` always suffices
because `i / 26 < i` for `i > 0`, so each iteration strictly decreases `i`.
-/

def alphabet : List Char :=
  ['a', 'b', 'c', 'd', 'e', 'f', 'g', 'h', 'i', 'j', 'k', 'l', 'm',
   'n', 'o', 'p', 'q', 'r', 's', 't', 'u', 'v', 'w', 'x', 'y', 'z']

def sliceLabGo : Nat → Nat → List Char
  | _, 0 => []
  | 0, _ + 1 => []
  | fuel + 1, i + 1 =>
      sliceLabGo fuel ((i + 1) / 26) ++ [alphabet.getD ((i + 1) % 26) 'a']

/-- The `while i > 0` loop body of `slice_lab`: digits accumulated from the
least-significant side (`ret = remc + ret`). -/
def sliceLabCore (i : Nat) : List Char :=
  sliceLabGo i i

/-- The `while len(ret) < 3: ret = 'a' + ret` padding step. -/
def padLab (l : List Char) : List Char :=
  List.replicate (3 - l.length) 'a' ++ l

/-- Function `slice_lab` with its final `assert len(ret) == 3` modelled as `none` on
assertion failure. -/
def sliceLab (i : Nat) : Option (List Char) :=
  let ret := padLab (sliceLabCore i)
  if ret.length = 3 then some ret else none

/-- Base-26 value of a label over the alphabet `a..z` (`'a'` = digit 0):
what position in the suffix sequence `aaa, aab, …` a label denotes. -/
def labelVal (l : List Char) : Nat :=
  l.foldl (fun acc c => acc * 26 + (c.toNat - 97)) 0

/-- The base-26 representation of `i` over `a..z`, left-padded with `'a'`
to exactly 3 characters — the `i`-th element of the sequence `aaa, aab, …`. -/
def specLabel (i : Nat) : List Char :=
  [Char.ofNat (97 + i / 676 % 26), Char.ofNat (97 + i / 26 % 26),
   Char.ofNat (97 + i % 26)]

example : sliceLab 0 = some ['a', 'a', 'a'] := by decide
example : sliceLab 1 = some ['a', 'a', 'b'] := by decide
example : sliceLab 26 = some ['a', 'b', 'a'] := by decide
example : sliceLab 17575 = some ['z', 'z', 'z'] := by decide
example : sliceLab 17576 = none := by decide

lemma sliceLabGo_fuel_irrel : ∀ i f g, i ≤ f → i ≤ g →
    sliceLabGo f i = sliceLabGo g i := by
  intro i
  induction i using Nat.strong_induction_on with
  | _ i ih =>
    intro f g hf hg
    match i, f, g, hf, hg with
    | 0, f, g, _, _ =>
      cases f <;> cases g <;> rfl
    | i + 1, f + 1, g + 1, hf, hg =>
      show sliceLabGo f ((i + 1) / 26) ++ _ = sliceLabGo g ((i + 1) / 26) ++ _
      have hlt : (i + 1) / 26 < i + 1 := Nat.div_lt_self (Nat.succ_pos i) (by omega)
      rw [ih ((i + 1) / 26) hlt f g (by omega) (by omega)]

/-- The loop of `slice_lab` satisfies the expected one-step unfolding:
one digit is appended per division by 26. -/
lemma sliceLabCore_unfold (i : Nat) (h : 0 < i) :
    sliceLabCore i = sliceLabCore (i / 26) ++ [alphabet.getD (i % 26) 'a'] := by
  match i, h with
  | i + 1, _ =>
    show sliceLabGo (i + 1) (i + 1) = sliceLabGo ((i + 1) / 26) ((i + 1) / 26) ++ _
    have hlt : (i + 1) / 26 < i + 1 := Nat.div_lt_self (Nat.succ_pos i) (by omega)
    show sliceLabGo i ((i + 1) / 26) ++ _ = _
    rw [sliceLabGo_fuel_irrel ((i + 1) / 26) i ((i + 1) / 26) (by omega) (le_refl _)]

lemma alphabet_getD : ∀ d, d < 26 → alphabet.getD d 'a' = Char.ofNat (97 + d) := by
  decide

lemma sliceLabCore_small (q : Nat) (h0 : 0 < q) (h : q < 26) :
    sliceLabCore q = [Char.ofNat (97 + q)] := by
  rw [sliceLabCore_unfold q h0]
  have h1 : q / 26 = 0 := by omega
  have h2 : q % 26 = q := by omega
  rw [h1, h2, alphabet_getD q h]
  rfl

lemma sliceLabCore_mid (q : Nat) (h0 : 26 ≤ q) (h : q < 676) :
    sliceLabCore q = [Char.ofNat (97 + q / 26), Char.ofNat (97 + q % 26)] := by
  rw [sliceLabCore_unfold q (by omega),
      sliceLabCore_small (q / 26) (by omega) (by omega),
      alphabet_getD (q % 26) (by omega)]
  rfl

lemma sliceLabCore_big (i : Nat) (h0 : 676 ≤ i) (h : i < 17576) :
    sliceLabCore i =
      [Char.ofNat (97 + i / 676), Char.ofNat (97 + i / 26 % 26),
       Char.ofNat (97 + i % 26)] := by
  rw [sliceLabCore_unfold i (by omega),
      sliceLabCore_mid (i / 26) (by omega) (by omega),
      alphabet_getD (i % 26) (by omega)]
  have h26 : i / 26 / 26 = i / 676 := by
    rw [Nat.div_div_eq_div_mul]
  rw [h26]
  rfl

lemma char_toNat_ofNat : ∀ d, d < 26 → (Char.ofNat (97 + d)).toNat = 97 + d := by
  decide

lemma padLab_core_eq_specLabel (i : Nat) (hi : i < 17576) :
    padLab (sliceLabCore i) = specLabel i := by
  rcases Nat.eq_zero_or_pos i with h0 | h0
  · subst h0; decide
  by_cases h26 : i < 26
  · rw [sliceLabCore_small i h0 h26]
    have h1 : i / 676 % 26 = 0 := by omega
    have h2 : i / 26 % 26 = 0 := by omega
    have h3 : i % 26 = i := by omega
    have ha : Char.ofNat (97 + 0) = 'a' := by decide
    simp only [specLabel, h1, h2, h3, ha]
    rfl
  by_cases h676 : i < 676
  · rw [sliceLabCore_mid i (by omega) h676]
    have h1 : i / 676 % 26 = 0 := by omega
    have h2 : i / 26 % 26 = i / 26 := by omega
    have ha : Char.ofNat (97 + 0) = 'a' := by decide
    simp only [specLabel, h1, h2, ha]
    rfl
  · rw [sliceLabCore_big i (by omega) hi]
    have h1 : i / 676 % 26 = i / 676 := by omega
    simp only [padLab, specLabel, h1]
    rfl

/-- Claim C6: (amended): for every `i < 26³ = 17576`, `slice_lab i` returns the
base-26 representation of `i` over `a..z`, left-padded with `'a'` to exactly
3 characters — the `i`-th element of the suffix sequence `aaa, aab, …` that
`split -a 3` uses, so the `processCount` split-output files for processes
`0..processCount-1` are named with consecutive suffixes starting at `aaa`.
(For `i ≥ 17576` the claim fails: the label would need 4 characters and
`slice_lab`'s `assert len(ret) == 3` fails, see the counterexample.) -/
theorem sliceLab_is_padded_base26 (i : Nat) (hi : i < 17576) :
    sliceLab i = some (specLabel i) ∧ (specLabel i).length = 3 ∧
    labelVal (specLabel i) = i := by
  have hval : labelVal (specLabel i) = i := by
    have c1 := char_toNat_ofNat (i / 676 % 26) (by omega)
    have c2 := char_toNat_ofNat (i / 26 % 26) (by omega)
    have c3 := char_toNat_ofNat (i % 26) (by omega)
    simp only [labelVal, specLabel, List.foldl, c1, c2, c3]
    omega
  have hpad := padLab_core_eq_specLabel i hi
  refine ⟨?_, rfl, hval⟩
  simp only [sliceLab, hpad, specLabel, List.length_cons, List.length_nil]
  rfl

/-- Claim C6: witness: the theorem applied at the concrete index 27
(label `abb`). -/
theorem sliceLab_is_padded_base26_witness :
    27 < 17576 ∧ (sliceLab 27 = some (specLabel 27) ∧
      (specLabel 27).length = 3 ∧ labelVal (specLabel 27) = 27) :=
  ⟨by decide, sliceLab_is_padded_base26 27 (by decide)⟩

/-- Claim C6: counterexample: the claim as stated quantifies over *every*
`i ≥ 0`, but at `i = 17576` the label computed by the loop has 4 characters,
so `slice_lab`'s `assert len(ret) == 3` fails and no 3-character label is
returned at all. -/
theorem sliceLab_c6_counterexample :
    sliceLab 17576 = none ∧ (padLab (sliceLabCore 17576)).length = 4 := by
  decide

/-! ## get_configs (master.py lines 84-96)

The generator iterates the raw lines of the catalog file (line terminator
included, as Python file iteration yields them), splits each on tabs, skips
a line whose first three tokens are `name`, `tool`, `branch` (Python's
short-circuit `and` raises `IndexError` when `toks[0] == 'name'` but a later
token is missing), skips lines starting with `#`, raises on a token count
other than 6, and otherwise yields the six fields with `int(mp_mt)` and
`args.rstrip()` applied. -/

/-- Python `str.split('\t')`: split a character list at every tab. -/
def splitTabs : List Char → List (List Char)
  | [] => [[]]
  | c :: rest =>
      match splitTabs rest with
      | [] => []
      | t :: ts => if c = '\t' then [] :: t :: ts else (c :: t) :: ts

def pySplitTab (s : String) : List String :=
  (splitTabs s.data).map String.mk

/-- Python `ln.startswith('#')`. -/
def startsHash (s : String) : Bool :=
  match s.data with
  | [] => false
  | c :: _ => c = '#'

/-- The whitespace set of Python's `str.strip`/`str.rstrip`. -/
def pyWhitespace : List Char := [' ', '\t', '\n', '\x0b', '\x0c', '\r']

/-- Python `str.rstrip()` (used on the `args` field). -/
def rstripPy (s : String) : String :=
  String.mk ((s.data.reverse.dropWhile (pyWhitespace.contains ·)).reverse)

def digitsVal? (ds : List Char) : Option Nat :=
  if ds ≠ [] ∧ ds.all (·.isDigit) then
    some (ds.foldl (fun acc c => acc * 10 + (c.toNat - 48)) 0)
  else none

/-- Python `int(s)` on a decimal string: strip whitespace, optional sign,
then a non-empty digit run; anything else raises `ValueError` (`none`). -/
def pyInt? (s : String) : Option Int :=
  let t := ((s.data.dropWhile (pyWhitespace.contains ·)).reverse.dropWhile
      (pyWhitespace.contains ·)).reverse
  match t with
  | '+' :: ds => (digitsVal? ds).map Int.ofNat
  | '-' :: ds => (digitsVal? ds).map (fun n => -(n : Int))
  | ds => (digitsVal? ds).map Int.ofNat

structure ConfigEntry where
  name : String
  tool : String
  branch : String
  mpMt : Int
  preproc : String
  alignerArgs : String
deriving Repr, DecidableEq

inductive LineResult where
  /-- The line is silently skipped. -/
  | skipped
  /-- The line yields a parsed catalog entry. -/
  | yielded (e : ConfigEntry)
  /-- Error `RuntimeError('Expected 6 tokens, got %d')`. -/
  | errTokenCount (n : Nat)
  /-- Error `IndexError` from `toks[1]`/`toks[2]` inside the header test. -/
  | errIndex
  /-- Error `ValueError` from `int(mp_mt)`. -/
  | errValue
deriving Repr, DecidableEq

inductive HdrRes where
  | skip
  | noMatch
  | idxErr
deriving Repr, DecidableEq

/-- The header test `toks[0] == 'name' and toks[1] == 'tool' and
toks[2] == 'branch'`, with Python's left-to-right short-circuiting and its
`IndexError` on a missing token. -/
def headerCheck (toks : List String) : HdrRes :=
  if toks.getD 0 "" = "name" then
    match toks[1]? with
    | none => .idxErr
    | some t1 =>
      if t1 = "tool" then
        match toks[2]? with
        | none => .idxErr
        | some t2 => if t2 = "branch" then .skip else .noMatch
      else .noMatch
  else .noMatch

/-- One iteration of the `get_configs` loop body on a raw line. -/
def parseLine (ln : String) : LineResult :=
  let toks := pySplitTab ln
  match headerCheck toks with
  | .idxErr => .errIndex
  | .skip => .skipped
  | .noMatch =>
    if toks.length = 0 ∨ startsHash ln = true then .skipped
    else if toks.length ≠ 6 then .errTokenCount toks.length
    else
      match toks with
      | [name, tool, branch, mpMt, preproc, args] =>
        match pyInt? mpMt with
        | some k => .yielded ⟨name, tool, branch, k, preproc, rstripPy args⟩
        | none => .errValue
      | _ => .errTokenCount toks.length

/-- Generator `get_configs` over the raw lines of the catalog file: the list of
yielded entries, or the first error raised. -/
def getConfigs : List String → Except LineResult (List ConfigEntry)
  | [] => .ok []
  | ln :: rest =>
    match parseLine ln with
    | .skipped => getConfigs rest
    | .yielded e => (getConfigs rest).map (e :: ·)
    | r => .error r

example : parseLine "a\tb\tc\t1\tp\tq x \n" =
    .yielded ⟨"a", "b", "c", 1, "p", "q x"⟩ := by decide
example : parseLine "name\ttool\tbranch\tthreads\tflags\targs\n" =
    .skipped := by decide
example : parseLine "# a comment\n" = .skipped := by decide
example : parseLine "a\tb\tc\n" = .errTokenCount 3 := by decide

lemma splitTabs_ne_nil : ∀ l : List Char, splitTabs l ≠ [] := by
  intro l
  induction l with
  | nil => simp [splitTabs]
  | cons c rest ih =>
    match h : splitTabs rest with
    | [] => exact absurd h ih
    | t :: ts =>
      simp only [splitTabs, h]
      split <;> simp

lemma pySplitTab_ne_nil (s : String) : pySplitTab s ≠ [] := by
  simp only [pySplitTab, ne_eq, List.map_eq_nil_iff]
  exact splitTabs_ne_nil s.data

/-- A line starting with `#` can never match the header test: its first
tab-token starts with `#`, hence is not `"name"`. -/
lemma headerCheck_of_hash (ln : String) (h : startsHash ln = true) :
    headerCheck (pySplitTab ln) = .noMatch := by
  match hln : ln.data with
  | [] => simp [startsHash, hln] at h
  | c :: cs =>
    have hc : c = '#' := by simpa [startsHash, hln] using h
    subst hc
    match hsp : splitTabs cs with
    | [] => exact absurd hsp (splitTabs_ne_nil cs)
    | t :: ts =>
      have hpt : pySplitTab ln =
          String.mk ('#' :: t) :: ts.map String.mk := by
        simp [pySplitTab, hln, splitTabs, hsp]
      rw [hpt]
      have hne : String.mk ('#' :: t) ≠ "name" := by
        intro he
        have hd := congrArg String.data he
        rw [show "name".data = ['n', 'a', 'm', 'e'] from rfl] at hd
        injection hd with h1 _
        exact absurd h1 (by decide)
      simp [headerCheck, hne]

/-- Claim C7: (amended): a line whose first three tab-tokens of the raw line
(line terminator included) are exactly `name`, `tool`, `branch` is skipped
*wherever* it appears, never reaching the token-count check; every line
starting with `#` is skipped regardless of its token count; any other line
with a token count different from 6 raises the fatal token-count error; any
other line with exactly 6 tokens yields a parsed entry when its fourth field
parses as an integer and raises `ValueError` otherwise. -/
theorem getConfigs_line_policy :
    (∀ ln, headerCheck (pySplitTab ln) = .skip → parseLine ln = .skipped) ∧
    (∀ ln, startsHash ln = true → parseLine ln = .skipped) ∧
    (∀ ln, headerCheck (pySplitTab ln) = .noMatch → startsHash ln = false →
      (pySplitTab ln).length ≠ 6 →
      parseLine ln = .errTokenCount (pySplitTab ln).length) ∧
    (∀ ln n t b d e f, headerCheck (pySplitTab ln) = .noMatch →
      startsHash ln = false → pySplitTab ln = [n, t, b, d, e, f] →
      parseLine ln = match pyInt? d with
        | some k => .yielded ⟨n, t, b, k, e, rstripPy f⟩
        | none => .errValue) ∧
    (∀ pre post ln, parseLine ln = .skipped →
      getConfigs (pre ++ ln :: post) = getConfigs (pre ++ post)) := by
  refine ⟨?_, ?_, ?_, ?_, ?_⟩
  · intro ln h
    simp only [parseLine, h]
  · intro ln h
    simp only [parseLine, headerCheck_of_hash ln h, h, or_true, if_true]
  · intro ln hhdr hhash hlen
    have hne : (pySplitTab ln).length ≠ 0 := by
      simpa using pySplitTab_ne_nil ln
    have hcond : ¬((pySplitTab ln).length = 0 ∨ startsHash ln = true) := by
      simp [hne, hhash]
    simp only [parseLine, hhdr]
    rw [if_neg hcond, if_pos hlen]
  · intro ln n t b d e f hhdr hhash hsp
    rw [hsp] at hhdr
    simp only [parseLine, hsp, hhdr, hhash]
    norm_num
  · intro pre post ln h
    induction pre with
    | nil => simp only [List.nil_append, getConfigs, h]
    | cons l pre ih =>
      simp only [List.cons_append, getConfigs]
      cases hl : parseLine l <;> simp [hl, ih]

/-- Claim C7: witness: the amended policy applied to concrete lines — a
mid-file header-like 5-token line is skipped, a comment with 2 tokens is
skipped, a 3-token line fails fatally, a 6-token line yields an entry, and
a skipped line mid-file leaves the parse of the surrounding lines
unchanged. -/
theorem getConfigs_line_policy_witness :
    parseLine "name\ttool\tbranch\tq\tr\n" = .skipped ∧
    parseLine "# x\ty\n" = .skipped ∧
    parseLine "a\tb\tc\n" = .errTokenCount 3 ∧
    parseLine "a\tb\tc\t7\tp\tq\n" = .yielded ⟨"a", "b", "c", 7, "p", "q"⟩ ∧
    getConfigs ["a\tb\tc\t7\tp\tq\n", "name\ttool\tbranch\tq\tr\n"] =
      getConfigs ["a\tb\tc\t7\tp\tq\n"] :=
  ⟨getConfigs_line_policy.1 _ (by decide),
   getConfigs_line_policy.2.1 _ (by decide),
   getConfigs_line_policy.2.2.1 _ (by decide) (by decide) (by decide),
   getConfigs_line_policy.2.2.2.1 "a\tb\tc\t7\tp\tq\n" "a" "b" "c" "7" "p"
     "q\n" (by decide) (by decide) (by decide),
   getConfigs_line_policy.2.2.2.2 ["a\tb\tc\t7\tp\tq\n"] [] _ (by decide)⟩

/-- Claim C7: counterexample: the claim fails as stated — (1) a *non-leading*
line with 5 tab-fields whose first three are `name`, `tool`, `branch` does
not fail fatally: it is silently skipped and parsing succeeds; (2) a leading
header line consisting of exactly the three fields `name`, `tool`, `branch`
(followed by the line terminator) is not skipped but raises the fatal
token-count error; (3) a 6-field line whose fourth field is not an integer
does not yield an entry but raises `ValueError`. -/
theorem getConfigs_c7_counterexample :
    getConfigs ["a\tb\tc\t1\tp\tq\n", "name\ttool\tbranch\tq\tr\n"] =
      .ok [⟨"a", "b", "c", 1, "p", "q"⟩] ∧
    getConfigs ["name\ttool\tbranch\n"] = .error (.errTokenCount 3) ∧
    getConfigs ["a\tb\tc\tx\tp\tq\n"] = .error .errValue :=
  ⟨rfl, rfl, rfl⟩

/-! ## Build artifact resolver (master.py lines 241-283)

For each catalog entry the setup loop compares against the immediately
preceding entry (`last_tool`, `last_branch`, `last_preproc`) and chooses one
of: `git pull` + make (existing dir, `--pull` given), `ln -s` to the
previous entry's directory, `cp -r` of the previous directory followed by
deleting the stale executable and running make, a fresh `git clone` + make
(`install_tool_version`), or trusting the existing directory untouched. -/

/-- The `(tool, branch, preproc)` key of a catalog entry, the data the
resolver compares between consecutive entries. -/
structure BuildKey where
  tool : String
  branch : String
  preproc : String
deriving Repr, DecidableEq

inductive BuildAction where
  /-- Action `git pull` into the existing working copy, then `make`. -/
  | pullMake
  /-- Action `ln -s -f last_name build_dir`: symbolic link to the previous
  entry's artifact directory. -/
  | link
  /-- Action `cp -r last_build_dir build_dir`, delete the stale executable,
  then `make` with the new flags. -/
  | copyMake
  /-- Action `install_tool_version`: fresh `git clone` of the branch, then
  `make`. -/
  | cloneMake
  /-- No branch taken: the existing executable is trusted as-is. -/
  | trustExisting
deriving Repr, DecidableEq

/-- Lines 251-260: `build, pull = False, False` followed by the three `os.path.exists` /
`--force` cases (lines 251-260): is this entry marked for a fresh build? -/
def markedBuild (dirExists forceBuilds : Bool) : Bool :=
  (dirExists && forceBuilds) || !dirExists

/-- Is this entry marked as a pull candidate (lines 257-258)? -/
def markedPull (dirExists forceBuilds : Bool) : Bool :=
  dirExists && !forceBuilds

/-- The `if pull and args.pull / elif build and … / elif build and … /
elif build` chain (lines 262-282), deciding what the resolver does for one
entry given the previous entry's key. -/
def resolveAction (dirExists forceBuilds pullOpt : Bool)
    (cur prev : BuildKey) : BuildAction :=
  let build := markedBuild dirExists forceBuilds
  let pull := markedPull dirExists forceBuilds
  if pull && pullOpt then .pullMake
  else if build && cur.tool == prev.tool && cur.branch == prev.branch
      && cur.preproc == prev.preproc then .link
  else if build && cur.tool == prev.tool && cur.branch == prev.branch then
    .copyMake
  else if build then .cloneMake
  else .trustExisting

/-- Does the action run the external build tool (`make_tool_version`)? -/
def invokesMake : BuildAction → Bool
  | .pullMake => true
  | .link => false
  | .copyMake => true
  | .cloneMake => true
  | .trustExisting => false

/-- Does the action fetch source fresh from the repository (`git clone`)? -/
def fetchesFresh : BuildAction → Bool
  | .cloneMake => true
  | _ => false

/-- Does the action delete the stale compiled executable from a duplicated
working copy (`os.remove` on line 277)? -/
def deletesStaleExe : BuildAction → Bool
  | .copyMake => true
  | _ => false

/-- Claim C8: (confirmed): for every catalog entry marked for a fresh build
(its build directory is missing, or present with `--force-builds`), with an
immediately preceding entry: same `(tool, branch, buildFlags)` as the
previous entry gives a symbolic link to the previous artifact directory and
invokes no recompilation; same `(tool, branch)` with different flags
duplicates the previous working copy, deletes the stale executable, and
runs the build tool with the new flags, never fetching source fresh; only
otherwise does it fetch fresh from the repository and build. -/
theorem resolver_reuse_policy (dirExists forceBuilds pullOpt : Bool)
    (cur prev : BuildKey)
    (hbuild : markedBuild dirExists forceBuilds = true) :
    (cur = prev →
      resolveAction dirExists forceBuilds pullOpt cur prev = .link ∧
      invokesMake (resolveAction dirExists forceBuilds pullOpt cur prev)
        = false) ∧
    (cur.tool = prev.tool → cur.branch = prev.branch →
      cur.preproc ≠ prev.preproc →
      resolveAction dirExists forceBuilds pullOpt cur prev = .copyMake ∧
      deletesStaleExe (resolveAction dirExists forceBuilds pullOpt cur prev)
        = true ∧
      invokesMake (resolveAction dirExists forceBuilds pullOpt cur prev)
        = true ∧
      fetchesFresh (resolveAction dirExists forceBuilds pullOpt cur prev)
        = false) ∧
    (¬(cur.tool = prev.tool ∧ cur.branch = prev.branch) →
      resolveAction dirExists forceBuilds pullOpt cur prev = .cloneMake ∧
      fetchesFresh (resolveAction dirExists forceBuilds pullOpt cur prev)
        = true ∧
      invokesMake (resolveAction dirExists forceBuilds pullOpt cur prev)
        = true) := by
  have hpull : markedPull dirExists forceBuilds = false := by
    cases dirExists <;> cases forceBuilds <;>
      simp_all [markedBuild, markedPull]
  refine ⟨?_, ?_, ?_⟩
  · intro he
    subst he
    simp [resolveAction, hbuild, hpull, invokesMake]
  · intro ht hb hp
    have hact : resolveAction dirExists forceBuilds pullOpt cur prev
        = .copyMake := by
      simp [resolveAction, hbuild, hpull, ht, hb, hp]
    rw [hact]
    exact ⟨rfl, rfl, rfl, rfl⟩
  · intro hne
    have hact : resolveAction dirExists forceBuilds pullOpt cur prev
        = .cloneMake := by
      by_cases ht : cur.tool = prev.tool
      · have hb : cur.branch ≠ prev.branch := fun hb => hne ⟨ht, hb⟩
        simp [resolveAction, hbuild, hpull, ht, hb]
      · simp [resolveAction, hbuild, hpull, ht]
    rw [hact]
    exact ⟨rfl, rfl, rfl⟩

/-- Claim C8: witness: the policy applied to concrete keys — identical key
(link), same tool and branch with different flags (copy), and a different
branch (fresh clone), each for a missing build directory. -/
theorem resolver_reuse_policy_witness :
    (resolveAction false false false ⟨"bowtie", "v1", "-O3"⟩
       ⟨"bowtie", "v1", "-O3"⟩ = .link) ∧
    (resolveAction false false false ⟨"bowtie", "v1", "-O2"⟩
       ⟨"bowtie", "v1", "-O3"⟩ = .copyMake) ∧
    (resolveAction false false false ⟨"bowtie", "v2", "-O3"⟩
       ⟨"bowtie", "v1", "-O3"⟩ = .cloneMake) :=
  ⟨((resolver_reuse_policy false false false ⟨"bowtie", "v1", "-O3"⟩
      ⟨"bowtie", "v1", "-O3"⟩ (by decide)).1 rfl).1,
   ((resolver_reuse_policy false false false ⟨"bowtie", "v1", "-O2"⟩
      ⟨"bowtie", "v1", "-O3"⟩ (by decide)).2.1 rfl rfl (by decide)).1,
   ((resolver_reuse_policy false false false ⟨"bowtie", "v2", "-O3"⟩
      ⟨"bowtie", "v1", "-O3"⟩ (by decide)).2.2 (by decide)).1⟩

/-! ## Process supervisor (master.py lines 387-490)

`spawn_worker` wraps each command in a `multiprocessing.Process` whose
target opens the two sinks, spawns the child with `subprocess.Popen`, and
polls it once a second; when the shared `done_val` flag is set it sends the
child `SIGTERM` and **returns normally** — so a wrapper terminated via the
flag exits with status 0, and `proc.exitcode` is always the *wrapper's*
exit status, never the child's.

The join loop (lines 460-471): all workers are started at time 0 and run
concurrently; `proc.join(args.timeout)` is issued sequentially, so worker
`i`'s wait expires at `tᵢ + timeout` where `tᵢ` is the time already spent
joining earlier workers.  If a worker is still alive then, `done_val` is
set, *all* workers are joined unboundedly (each observes the flag and
terminates its child), `None` is appended for that worker — and every later
worker, now already dead, contributes its wrapper exit code instead.

A worker is modelled by its natural finish time `dur` (from the common
start) and `code`, the wrapper's exit status when it runs to completion
(0 unless the wrapper itself fails, e.g. a sink cannot be opened; the
child's exit status is never propagated).  Flag observation and child
termination are idealised as instantaneous at the moment the flag is set. -/

structure Worker where
  /-- Natural finish time of the wrapper, measured from the common start. -/
  dur : Nat
  /-- Wrapper exit status when it terminates without being flag-killed. -/
  code : Int
deriving Repr, DecidableEq

/-- One `exitlevels` entry (`none` = the `None` appended on timeout)
paired with whether this worker's child was force-killed via the shared
flag. -/
abbrev JoinEntry := Option Int × Bool

/-- The sequential join loop at elapsed time `t`: first component of the
result is `exitlevels` (zipped with the killed-via-flag marker), second is
the time at which `done_val` was set, if it was. -/
def superviseAux (timeout : Nat) : Nat → List Worker →
    List JoinEntry × Option Nat
  | _, [] => ([], none)
  | t, w :: ws =>
    if w.dur ≤ t + timeout then
      -- `join(timeout)` returned: `is_alive()` is false, append `exitcode`.
      let r := superviseAux timeout (max t w.dur) ws
      ((some w.code, false) :: r.1, r.2)
    else
      -- still alive: set the flag, join everything unboundedly, append
      -- `None`; every remaining worker is then already joined, so the loop
      -- appends its wrapper exit code (0 if it was flag-killed).
      let k := t + timeout
      ((none, true) ::
        ws.map (fun w2 => if w2.dur ≤ k then (some w2.code, false)
          else ((some 0 : Option Int), true)),
       some k)

/-- Function `run`: start all workers, then the sequential join loop. -/
def supervise (timeout : Nat) (ws : List Worker) :
    List JoinEntry × Option Nat :=
  superviseAux timeout 0 ws

inductive Outcome where
  | timeOut
  | fail
  | succeed
deriving Repr, DecidableEq

/-- Outcome classification (lines 481-490): any `None` exit level means
`TIME_OUT`; else any non-zero exit level means `FAIL`; else `SUCCEED`. -/
def classify (exitlevels : List (Option Int)) : Outcome :=
  if exitlevels.any (·.isNone) then .timeOut
  else if exitlevels.any (· ≠ some 0) then .fail
  else .succeed

/-- Sentinel files written after the group is joined (lines 480-490): a
`JOIN` sentinel unconditionally, then exactly one outcome sentinel. -/
def sentinels (exitlevels : List (Option Int)) : List String :=
  ["JOIN",
   match classify exitlevels with
   | .timeOut => "TIME_OUT"
   | .fail => "FAIL"
   | .succeed => "SUCCEED"]

example : supervise 10 [⟨3, 0⟩, ⟨7, 0⟩] =
    ([(some 0, false), (some 0, false)], none) := by decide
example : supervise 1 [⟨5, 0⟩, ⟨5, 0⟩] =
    ([(none, true), (some 0, true)], some 1) := by decide
example : supervise 2 [⟨1, 0⟩, ⟨9, 0⟩, ⟨1, 0⟩] =
    ([(some 0, false), (none, true), (some 0, false)], some 3) := by decide

lemma superviseAux_length (T : Nat) :
    ∀ ws t, (superviseAux T t ws).1.length = ws.length := by
  intro ws
  induction ws with
  | nil => intro t; rfl
  | cons w ws ih =>
    intro t
    by_cases hle : w.dur ≤ t + T <;>
      simp [superviseAux, hle, ih]

lemma superviseAux_trigger_ge (T : Nat) :
    ∀ ws t k, (superviseAux T t ws).2 = some k → t + T ≤ k := by
  intro ws
  induction ws with
  | nil => intro t k h; simp [superviseAux] at h
  | cons w ws ih =>
    intro t k h
    by_cases hle : w.dur ≤ t + T
    · simp only [superviseAux, if_pos hle] at h
      have := ih (max t w.dur) k h
      omega
    · simp only [superviseAux, if_neg hle, Option.some.injEq] at h
      omega

lemma zip_map_self {α β : Type} (f : α → β) :
    ∀ l : List α, ∀ p ∈ (l.map f).zip l, p.1 = f p.2 := by
  intro l
  induction l with
  | nil => simp
  | cons a l ih =>
    intro p hp
    simp only [List.map_cons, List.zip_cons_cons, List.mem_cons] at hp
    rcases hp with h | h
    · rw [h]
    · exact ih p h

lemma superviseAux_killed (T : Nat) :
    ∀ ws t k, (superviseAux T t ws).2 = some k →
      ∀ p ∈ (superviseAux T t ws).1.zip ws, p.1.2 = true ∨ p.2.dur ≤ k := by
  intro ws
  induction ws with
  | nil => simp [superviseAux]
  | cons w ws ih =>
    intro t k h p hp
    by_cases hle : w.dur ≤ t + T
    · simp only [superviseAux, if_pos hle] at h hp
      simp only [List.zip_cons_cons, List.mem_cons] at hp
      rcases hp with hph | hpt
      · right
        have hk := superviseAux_trigger_ge T ws (max t w.dur) k h
        rw [hph]
        simp only
        omega
      · exact ih (max t w.dur) k h p hpt
    · simp only [superviseAux, if_neg hle, Option.some.injEq] at h hp
      subst h
      simp only [List.zip_cons_cons, List.mem_cons] at hp
      rcases hp with hph | hpt
      · left; rw [hph]
      · have := zip_map_self
          (fun w2 => if w2.dur ≤ t + T then (some w2.code, false)
            else ((some 0 : Option Int), true)) ws p hpt
        by_cases hd : p.2.dur ≤ t + T
        · right; exact hd
        · left
          rw [this]
          simp [hd]

lemma superviseAux_has_none (T : Nat) :
    ∀ ws t k, (superviseAux T t ws).2 = some k →
      ((superviseAux T t ws).1.map Prod.fst).any (·.isNone) = true := by
  intro ws
  induction ws with
  | nil => simp [superviseAux]
  | cons w ws ih =>
    intro t k h
    by_cases hle : w.dur ≤ t + T
    · simp only [superviseAux, if_pos hle] at h ⊢
      simp only [List.map_cons, List.any_cons]
      rw [ih (max t w.dur) k h]
      simp
    · simp [superviseAux, if_neg hle]

/-- Claim C5: (confirmed): whenever some command is still running when its
wait with the shared timeout expires (the shared flag gets set, at time
`k`), every worker in the group — not only the slow one — is stopped:
each is either flag-killed or had already finished by `k`; the recorded
outcome is `TIME_OUT`; and a `JOIN` sentinel is written once all commands
are joined, independent of the outcome. -/
theorem supervisor_timeout_groupkill (T : Nat) (ws : List Worker) (k : Nat)
    (h : (supervise T ws).2 = some k) :
    (supervise T ws).1.length = ws.length ∧
    (∀ p ∈ (supervise T ws).1.zip ws, p.1.2 = true ∨ p.2.dur ≤ k) ∧
    classify ((supervise T ws).1.map Prod.fst) = .timeOut ∧
    sentinels ((supervise T ws).1.map Prod.fst) = ["JOIN", "TIME_OUT"] ∧
    (∀ exitlevels, "JOIN" ∈ sentinels exitlevels) := by
  have hnone := superviseAux_has_none T ws 0 k h
  have hcls : classify ((supervise T ws).1.map Prod.fst) = .timeOut := by
    simp [classify, supervise, hnone]
  refine ⟨superviseAux_length T ws 0, superviseAux_killed T ws 0 k h, hcls,
    ?_, ?_⟩
  · simp [sentinels, hcls]
  · intro exitlevels
    simp [sentinels]

/-- Claim C5: witness: the theorem applied to a concrete group — timeout 1,
two workers that would run for 5 time units. -/
theorem supervisor_timeout_groupkill_witness :
    (supervise 1 [⟨5, 0⟩, ⟨5, 0⟩]).2 = some 1 ∧
    ((supervise 1 [⟨5, 0⟩, ⟨5, 0⟩]).1.length = 2 ∧
      (∀ p ∈ (supervise 1 [⟨5, 0⟩, ⟨5, 0⟩]).1.zip
          ([⟨5, 0⟩, ⟨5, 0⟩] : List Worker),
        p.1.2 = true ∨ p.2.dur ≤ 1) ∧
      classify ((supervise 1 [⟨5, 0⟩, ⟨5, 0⟩]).1.map Prod.fst) = .timeOut ∧
      sentinels ((supervise 1 [⟨5, 0⟩, ⟨5, 0⟩]).1.map Prod.fst)
        = ["JOIN", "TIME_OUT"] ∧
      (∀ exitlevels, "JOIN" ∈ sentinels exitlevels)) :=
  ⟨by decide, supervisor_timeout_groupkill 1 [⟨5, 0⟩, ⟨5, 0⟩] 1 (by decide)⟩

/-- Claim C1: counterexample: timeout 1, two workers of duration 5.  The flag
is set when the first worker's wait expires (time 1) and both workers'
children are force-killed via the flag (`killed` marker `true` for both),
but only the first reports `None`/`TIMED_OUT`: the second flag-killed
worker contributes wrapper exit code `0` to the collected exit levels —
refuting "every command force-killed via the flag reports `TIMED_OUT`". -/
theorem supervise_c1_counterexample :
    (supervise 1 [⟨5, 0⟩, ⟨5, 0⟩]).2 = some 1 ∧
    (supervise 1 [⟨5, 0⟩, ⟨5, 0⟩]).1
      = [(none, true), (some 0, true)] ∧
    ¬(∀ p ∈ (supervise 1 [⟨5, 0⟩, ⟨5, 0⟩]).1,
        p.2 = true → p.1 = none) := by
  refine ⟨by decide, by decide, ?_⟩
  intro hall
  have := hall (some 0, true) (by decide) rfl
  exact Option.noConfusion this

/-- Claim C1: (amended): whenever the shared flag was set because some
command's wait expired, the command that triggered it reports
`TIMED_OUT` (and was itself flag-killed), while every other command
force-killed via the flag reports the wrapper's exit code `0` — so no
killed worker contributes a signal-derived (non-zero) exit code to the
collected exit levels, but flag-killed workers other than the triggering
one report exit code `0`, not `TIMED_OUT`. -/
theorem supervisor_exitlevels_on_timeout (T : Nat) (ws : List Worker)
    (k : Nat) (h : (supervise T ws).2 = some k) :
    (∃ p ∈ (supervise T ws).1, p.1 = none ∧ p.2 = true) ∧
    (∀ p ∈ (supervise T ws).1, p.2 = true →
      p.1 = none ∨ p.1 = some 0) ∧
    (∀ p ∈ (supervise T ws).1, p.1 = none → p.2 = true) := by
  have main : ∀ ws' t, (superviseAux T t ws').2 = some k →
      (∃ p ∈ (superviseAux T t ws').1, p.1 = none ∧ p.2 = true) ∧
      (∀ p ∈ (superviseAux T t ws').1, p.2 = true →
        p.1 = none ∨ p.1 = some 0) ∧
      (∀ p ∈ (superviseAux T t ws').1, p.1 = none → p.2 = true) := by
    intro ws'
    induction ws' with
    | nil => intro t h'; simp [superviseAux] at h'
    | cons w ws' ih =>
      intro t h'
      by_cases hle : w.dur ≤ t + T
      · simp only [superviseAux, if_pos hle] at h' ⊢
        obtain ⟨hex, hall, hnone⟩ := ih (max t w.dur) h'
        refine ⟨?_, ?_, ?_⟩
        · obtain ⟨p, hp, hp1, hp2⟩ := hex
          exact ⟨p, List.mem_cons_of_mem _ hp, hp1, hp2⟩
        · intro p hp hk
          rcases List.mem_cons.mp hp with hph | hpt
          · rw [hph] at hk; simp at hk
          · exact hall p hpt hk
        · intro p hp hn
          rcases List.mem_cons.mp hp with hph | hpt
          · rw [hph] at hn; simp at hn
          · exact hnone p hpt hn
      · simp only [superviseAux, if_neg hle, Option.some.injEq] at h' ⊢
        refine ⟨⟨(none, true), List.mem_cons_self _ _, rfl, rfl⟩, ?_, ?_⟩
        · intro p hp hk
          rcases List.mem_cons.mp hp with hph | hpt
          · left; rw [hph]
          · obtain ⟨w2, _, hw2⟩ := List.mem_map.mp hpt
            by_cases hd : w2.dur ≤ t + T
            · rw [← hw2] at hk; simp [hd] at hk
            · right; rw [← hw2]; simp [hd]
        · intro p hp hn
          rcases List.mem_cons.mp hp with hph | hpt
          · rw [hph]
          · obtain ⟨w2, _, hw2⟩ := List.mem_map.mp hpt
            by_cases hd : w2.dur ≤ t + T
            · rw [← hw2] at hn; simp [hd] at hn
            · rw [← hw2]; simp [hd]
  exact main ws 0 h

/-- Claim C1: witness: the amended statement at the concrete group of the
counterexample (timeout 1, two workers of duration 5, flag set at 1). -/
theorem supervisor_exitlevels_on_timeout_witness :
    (supervise 1 [⟨5, 0⟩, ⟨5, 0⟩]).2 = some 1 ∧
    ((∃ p ∈ (supervise 1 [⟨5, 0⟩, ⟨5, 0⟩]).1, p.1 = none ∧ p.2 = true) ∧
      (∀ p ∈ (supervise 1 [⟨5, 0⟩, ⟨5, 0⟩]).1, p.2 = true →
        p.1 = none ∨ p.1 = some 0) ∧
      (∀ p ∈ (supervise 1 [⟨5, 0⟩, ⟨5, 0⟩]).1, p.1 = none → p.2 = true)) :=
  ⟨by decide, supervisor_exitlevels_on_timeout 1 [⟨5, 0⟩, ⟨5, 0⟩] 1
    (by decide)⟩

/-! ## verify_index (master.py lines 99-111)

The filesystem probe is a parameter `ex : String → Bool` (`os.path.exists`).
`tool_ext` raises for tools other than `bowtie2`/`hisat`/`bowtie` (`none`
here); for `bwa` a fixed extension set is probed, otherwise the six
`tool_ext`-suffixed index files, and for `hisat`, when those all exist, four
more. -/

def tool_ext : String → Option String
  | "bowtie2" => some "bt2"
  | "hisat" => some "bt2"
  | "bowtie" => some "ebwt"
  | _ => none

/-- Function `verify_index(basename, tool)`: `none` models the `RuntimeError` from
`tool_ext` on an unknown tool, `some b` the returned completeness bit. -/
def verify_index (ex : String → Bool) (basename tool : String) :
    Option Bool :=
  if tool = "bwa" then
    some ([".amb", ".ann", ".pac", ".bwt", ".sa"].all
      (fun x => ex (basename ++ x)))
  else
    match tool_ext tool with
    | none => none
    | some te =>
      let ret := ([".1.", ".2.", ".3.", ".4.", ".rev.1.", ".rev.2."]).all
        (fun x => ex (basename ++ x ++ te))
      if ret ∧ tool = "hisat" then
        some (([".5.", ".6.", ".rev.5.", ".rev.6."]).all
          (fun x => ex (basename ++ x ++ te)))
      else some ret

example : verify_index (fun _ => false) "idx" "bowtie" = some false := by
  decide
example : verify_index (fun _ => true) "idx" "bowtie2" = some true := by
  decide

/-! ## prepare_reads (master.py lines 142-210)

The filesystem probe is `fs : String → Option Nat`: `none` when the path
does not exist, `some n` when it exists with `n` lines (`wcl`; `wc -l` on a
missing file makes `subprocess.check_output` raise, so probing a missing
file is an error wherever `wcl` is called).  The external `head | split`
and `sed` commands only shape this filesystem state, which the model takes
as given; the definitions below embed the *checks* `prepare_reads` and
`slice_all_fastq` run against that state and the read sets they return. -/

/-- Function `slice_lab(i)` as used inside `prepare_reads`: its `AssertionError`
propagates as an error. -/
def labE (i : Nat) : Except String String :=
  match sliceLab i with
  | some l => .ok (String.mk l)
  | none => .error "assertion failed: len(ret) == 3"

/-- The sanity loop of `slice_all_fastq` (lines 155-160), started at slice
index `i` with `rem` slices left to check: each file `pref + slice_lab(j)`
must have exactly `readsPer * 4` lines. -/
def checkSlicesFrom (fs : String → Option Nat) (readsPer : Nat)
    (pref : String) : Nat → Nat → Except String Unit
  | _, 0 => .ok ()
  | i, rem + 1 =>
    match labE i with
    | .error e => .error e
    | .ok lab =>
      match fs (pref ++ lab) with
      | none => .error ("wc -l failed on " ++ pref ++ lab)
      | some m =>
        if m = readsPer * 4 then checkSlicesFrom fs readsPer pref (i + 1) rem
        else .error ("Expected lines mismatch in " ++ pref ++ lab)

def checkSlices (fs : String → Option Nat) (readsPer : Nat) (pref : String)
    (n : Nat) : Except String Unit :=
  checkSlicesFrom fs readsPer pref 0 n

/-- The per-process existence loop of `prepare_reads` (lines 187-196),
building the read sets. -/
def buildReadSets (fs : String → Option Nat) (tmpdir : String)
    (hasM2 : Bool) : Nat → Nat → Except String (List (List String))
  | _, 0 => .ok []
  | i, rem + 1 =>
    match labE i with
    | .error e => .error e
    | .ok lab =>
      let fn0 := tmpdir ++ "1_" ++ lab
      let fn1 := tmpdir ++ "2_" ++ lab
      match fs fn0 with
      | none => .error ("Split failed to create file " ++ fn0)
      | some _ =>
        if hasM2 then
          match fs fn1 with
          | none => .error ("Split failed to create file " ++ fn1)
          | some _ =>
            match buildReadSets fs tmpdir hasM2 (i + 1) rem with
            | .error e => .error e
            | .ok rest => .ok ([fn0, fn1] :: rest)
        else
          match buildReadSets fs tmpdir hasM2 (i + 1) rem with
          | .error e => .error e
          | .ok rest => .ok ([fn0] :: rest)

/-- Function `prepare_reads(args, nthread, mp_mt, tmpdir, blocked)`.  `hasM2` is
`args.m2 is not None`; `readsPerThread` is `args.reads_per_thread`.  In the
multiprocessing regime the slice line-count sanity checks run for mate 1
and, when declared, mate 2; then every expected slice file's existence is
checked; then the extra-file check probes `1_<slice_lab(nprocess)>` — the
mate-1 prefix only. -/
def prepare_reads (fs : String → Option Nat) (readsPerThread : Nat)
    (nthread mpMt : Nat) (tmpdir : String) (hasM2 blocked : Bool) :
    Except String (List (List String)) :=
  if 0 < mpMt then
    if blocked then
      .error "Unexpected combination of multiprocessing and blocked input"
    else if nthread % mpMt ≠ 0 then
      .error "assertion failed: nthread % mp_mt == 0"
    else
      let nprocess := nthread / mpMt
      let rpp := readsPerThread * nthread / nprocess
      match checkSlices fs rpp (tmpdir ++ "1_") nprocess with
      | .error e => .error e
      | .ok _ =>
        match (if hasM2 then checkSlices fs rpp (tmpdir ++ "2_") nprocess
            else .ok ()) with
        | .error e => .error e
        | .ok _ =>
          match buildReadSets fs tmpdir hasM2 0 nprocess with
          | .error e => .error e
          | .ok rs =>
            match labE nprocess with
            | .error e => .error e
            | .ok lab =>
              if (fs (tmpdir ++ "1_" ++ lab)).isSome then
                .error ("Got one more output file than expected from split: "
                  ++ tmpdir ++ "1_" ++ lab)
              else .ok rs
  else
    let rds1 := tmpdir ++ "1.fq"
    let rds2 := tmpdir ++ "2.fq"
    let nreads := readsPerThread * nthread
    match fs rds1 with
    | none => .error ("wc -l failed on " ++ rds1)
    | some m =>
      if m ≠ nreads * 4 then .error ("Expected lines mismatch in " ++ rds1)
      else if hasM2 then
        match fs rds2 with
        | none => .error ("wc -l failed on " ++ rds2)
        | some m2 =>
          if m2 ≠ nreads * 4 then
            .error ("Expected lines mismatch in " ++ rds2)
          else .ok [[rds1, rds2]]
      else .ok [[rds1]]

/-- A post-split filesystem state with correct mate-1 and mate-2 slices for
`nprocess = 2`, `readsPerProcess = 200` — and one *extra* mate-2 slice file
`2_aac` that a correct split would never produce. -/
def fsExtraMate2 : String → Option Nat := fun s =>
  List.lookup s [("t/1_aaa", 800), ("t/1_aab", 800),
                 ("t/2_aaa", 800), ("t/2_aab", 800), ("t/2_aac", 800)]

/-- The same state with an extra *mate-1* slice file `1_aac` instead. -/
def fsExtraMate1 : String → Option Nat := fun s =>
  List.lookup s [("t/1_aaa", 800), ("t/1_aab", 800), ("t/1_aac", 800),
                 ("t/2_aaa", 800), ("t/2_aab", 800)]

/-- A post-split filesystem state with exactly the expected slices. -/
def fsGoodSplit : String → Option Nat := fun s =>
  List.lookup s [("t/1_aaa", 800), ("t/1_aab", 800),
                 ("t/2_aaa", 800), ("t/2_aab", 800)]

example : prepare_reads fsGoodSplit 100 4 2 "t/" true false =
    .ok [["t/1_aaa", "t/2_aaa"], ["t/1_aab", "t/2_aab"]] := rfl

lemma checkSlicesFrom_sound (fs : String → Option Nat) (rpp : Nat)
    (pref : String) :
    ∀ rem i, checkSlicesFrom fs rpp pref i rem = .ok () →
      ∀ j < rem, ∃ l, labE (i + j) = .ok l ∧
        fs (pref ++ l) = some (rpp * 4) := by
  intro rem
  induction rem with
  | zero => intro i _ j hj; omega
  | succ rem ih =>
    intro i h j hj
    cases hl : labE i with
    | error e => simp [checkSlicesFrom, hl] at h
    | ok lab =>
      cases hf : fs (pref ++ lab) with
      | none => simp [checkSlicesFrom, hl, hf] at h
      | some m =>
        by_cases hm : m = rpp * 4
        · have hrec : checkSlicesFrom fs rpp pref (i + 1) rem = .ok () := by
            simpa [checkSlicesFrom, hl, hf, hm] using h
          cases j with
          | zero => exact ⟨lab, by simpa using hl, by rw [hm] at hf; simpa using hf⟩
          | succ j =>
            have := ih (i + 1) hrec j (by omega)
            obtain ⟨l, hl', hf'⟩ := this
            exact ⟨l, by rwa [show i + 1 + j = i + (j + 1) by omega] at hl', hf'⟩
        · simp [checkSlicesFrom, hl, hf, hm] at h

/-- Claim C9: (amended): for every successful MP/MP+MT partitioning with
`processCount = totalThreads / threadsPerProcess`, the checks passed mean:
the combination is unblocked and divisible; for both the mate-1 and (when
declared) mate-2 outputs, every expected suffixed file exists with exactly
`4 × readsPerProcess` lines; and no extra suffixed file exists beyond the
expected count *for the mate-1 output* — the extra-file post-condition is
probed only with the mate-1 prefix `1_`, so an extra mate-2 file is not
detected (see the counterexample). -/
theorem prepare_reads_mp_postconditions (fs : String → Option Nat)
    (rpt nthread mpMt : Nat) (tmpdir : String) (hasM2 blocked : Bool)
    (rs : List (List String)) (hmp : 0 < mpMt)
    (h : prepare_reads fs rpt nthread mpMt tmpdir hasM2 blocked = .ok rs) :
    blocked = false ∧ nthread % mpMt = 0 ∧
    (∀ j < nthread / mpMt, ∃ l, labE j = .ok l ∧
      fs (tmpdir ++ "1_" ++ l)
        = some (rpt * nthread / (nthread / mpMt) * 4) ∧
      (hasM2 = true → fs (tmpdir ++ "2_" ++ l)
        = some (rpt * nthread / (nthread / mpMt) * 4))) ∧
    (∃ l, labE (nthread / mpMt) = .ok l ∧
      fs (tmpdir ++ "1_" ++ l) = none) := by
  simp only [prepare_reads, if_pos hmp] at h
  cases hb : blocked with
  | true => rw [hb] at h; simp at h
  | false =>
  rw [hb] at h
  simp only [Bool.false_eq_true, if_false] at h
  by_cases hdvd : nthread % mpMt = 0
  case neg => simp [hdvd] at h
  simp only [hdvd, ne_eq, not_true_eq_false, if_false, if_neg] at h
  cases hc1 : checkSlices fs (rpt * nthread / (nthread / mpMt))
      (tmpdir ++ "1_") (nthread / mpMt) with
  | error e => simp [hc1] at h
  | ok u =>
  cases u
  cases hc2 : (if hasM2 then checkSlices fs
      (rpt * nthread / (nthread / mpMt)) (tmpdir ++ "2_")
      (nthread / mpMt) else Except.ok ()) with
  | error e => simp [hc1, hc2] at h
  | ok u =>
  cases u
  cases hbld : buildReadSets fs tmpdir hasM2 0 (nthread / mpMt) with
  | error e => simp [hc1, hc2, hbld] at h
  | ok rs' =>
  cases hlab : labE (nthread / mpMt) with
  | error e => simp [hc1, hc2, hbld, hlab] at h
  | ok lab =>
  cases hfs : fs (tmpdir ++ "1_" ++ lab) with
  | some v => simp [hc1, hc2, hbld, hlab, hfs] at h
  | none =>
  refine ⟨rfl, hdvd, ?_, lab, rfl, hfs⟩
  intro j hj
  have h1 := checkSlicesFrom_sound fs (rpt * nthread / (nthread / mpMt))
    (tmpdir ++ "1_") (nthread / mpMt) 0 hc1 j hj
  obtain ⟨l, hl, hf1⟩ := h1
  rw [Nat.zero_add] at hl
  refine ⟨l, hl, hf1, ?_⟩
  intro hm2
  rw [hm2, if_pos rfl] at hc2
  have h2 := checkSlicesFrom_sound fs (rpt * nthread / (nthread / mpMt))
    (tmpdir ++ "2_") (nthread / mpMt) 0 hc2 j hj
  obtain ⟨l', hl', hf2⟩ := h2
  rw [Nat.zero_add] at hl'
  rw [hl] at hl'
  cases hl'
  exact hf2

/-- Claim C9: witness: the post-conditions extracted from a successful
partitioning of 4 threads into 2 processes of 2 threads each over a
correct post-split filesystem state. -/
theorem prepare_reads_mp_postconditions_witness :
    (0 < 2 ∧ prepare_reads fsGoodSplit 100 4 2 "t/" true false =
      .ok [["t/1_aaa", "t/2_aaa"], ["t/1_aab", "t/2_aab"]]) ∧
    (false = false ∧ 4 % 2 = 0 ∧
      (∀ j < 4 / 2, ∃ l, labE j = .ok l ∧
        fsGoodSplit ("t/" ++ "1_" ++ l) = some (100 * 4 / (4 / 2) * 4) ∧
        (true = true → fsGoodSplit ("t/" ++ "2_" ++ l)
          = some (100 * 4 / (4 / 2) * 4))) ∧
      (∃ l, labE (4 / 2) = .ok l ∧
        fsGoodSplit ("t/" ++ "1_" ++ l) = none)) :=
  ⟨⟨by decide, rfl⟩,
   prepare_reads_mp_postconditions fsGoodSplit 100 4 2 "t/" true false
     [["t/1_aaa", "t/2_aaa"], ["t/1_aab", "t/2_aab"]] (by decide) rfl⟩

/-- Claim C9: counterexample: the claim as stated also demands that an extra
*mate-2* suffixed file be fatal, but the extra-file check only probes the
mate-1 prefix: with the extra file `t/2_aac` present the partitioning
succeeds, while the symmetric extra mate-1 file `t/1_aac` is fatal. -/
theorem prepare_reads_c9_counterexample :
    fsExtraMate2 "t/2_aac" = some 800 ∧
    prepare_reads fsExtraMate2 100 4 2 "t/" true false =
      .ok [["t/1_aaa", "t/2_aaa"], ["t/1_aab", "t/2_aab"]] ∧
    prepare_reads fsExtraMate1 100 4 2 "t/" true false =
      .error "Got one more output file than expected from split: t/1_aac" :=
  ⟨rfl, rfl, rfl⟩

/-! ## Sweep controller (master.py lines 311-502)

The experiment phase of `go`: the outer loop over the thread-count series,
the inner loop over catalog entries, index verification cached in
`indexes_verified`, the regime tracker `(last_mp_mt, last_blocked)` reset
at the top of every thread count, read-set purging, the repetition (`redo`)
loop, sentinel writes, and the final purge after both loops.

External effects are abstracted: `idxOk tool` is the value
`verify_index(args.index, tool)` would return against the ambient
filesystem (the sweep *discards* it, as the source does on line 337);
`oracle i` is the classified outcome of the `i`-th supervised attempt
(which depends only on the spawned processes); `prepare_reads` is
represented by its one input-dependent fatal check visible at this level —
`blocked` together with multiprocessing — plus the read-set state it
establishes.  `mp_mt` values are taken non-negative (they are per-process
thread quotas; the catalog's 4th column).  Events record, in order, the
externally visible actions the loop performs. -/

/-- Test `'block-bytes' in aligner_args` (line 344). -/
def blockedOf (alignerArgs : String) : Bool :=
  decide ("block-bytes".data <:+: alignerArgs.data)

structure SweepArgs where
  stopOnFail : Bool
  samDevNull : Bool
  hasM2 : Bool
deriving Repr, DecidableEq

structure SweepEntry where
  name : String
  tool : String
  mpMt : Nat
  alignerArgs : String
deriving Repr, DecidableEq

/-- The regime tracker `(last_mp_mt, last_blocked)`, re-initialised to
`(None, False)` at the top of every thread count (line 322). -/
structure RegimeState where
  lastMpMt : Option Nat
  lastBlocked : Bool
deriving Repr, DecidableEq

/-- State carried across the whole double loop: the verified-index cache
and whether `read_set` is currently not `None`. -/
structure CtlState where
  indexesVerified : List String
  readSetPresent : Bool
deriving Repr, DecidableEq

inductive Ev where
  /-- Call `verify_index(args.index, tool)` happened and returned `ok` —
  which the caller discards. -/
  | verifyIdx (tool : String) (ok : Bool)
  /-- The `os.remove` loop over the current read set's files. -/
  | purgeReads
  /-- Call `prepare_reads(args, nthreads, mp_mt, …, blocked)` was issued. -/
  | prepareReads (nthreads mpMt : Nat) (blocked : Bool)
  /-- One repetition of the redo loop ran to the sentinel writes:
  `idxRev` is `idx_rev = redo - idx`; the three `DevNull` flags say
  whether stdout, stderr and the alignment output went to `/dev/null`;
  `joinSentinel` records the unconditional `touch …JOIN` (line 480); the
  outcome names the outcome sentinel touched for run name
  `name_…_idxRev`. -/
  | attempt (name : String) (nthreads idxRev : Nat)
      (stdoutDevNull stderrDevNull samDevNull : Bool)
      (joinSentinel : Bool) (outcome : Outcome)
deriving Repr, DecidableEq

inductive SweepErr where
  /-- Error `RuntimeError` raised by `--stop-on-fail` (line 487). -/
  | stopOnFail
  /-- Error raised by `prepare_reads` on blocked input with multiprocessing. -/
  | blockedMp
  /-- Assertion `assert nprocess >= 1` failed (line 363). -/
  | badNprocess
deriving Repr, DecidableEq

/-- Result of processing one catalog entry at one thread count. -/
structure StepOut where
  evs : List Ev
  st : CtlState
  rst : RegimeState
  ctr : Nat
  /-- Value `some redo` when the pair ran its repetition loop, `none` when the
  pair was skipped by the divisibility test. -/
  redoUsed : Option Nat
  err : Option SweepErr
deriving Repr, DecidableEq

/-- Line 341: skip the pair when `mp_mt != 0` and `nthreads` is not evenly
divisible by it. -/
def skipsEntry (nthreads : Nat) (e : SweepEntry) : Bool :=
  e.mpMt != 0 && nthreads % e.mpMt != 0

/-- Line 345: `last_mp_mt is None or mp_mt != last_mp_mt or
blocked != last_blocked`. -/
def regimeChanged (rst : RegimeState) (mpMt : Nat) (blocked : Bool) :
    Bool :=
  rst.lastMpMt.isNone || rst.lastMpMt != some mpMt
    || blocked != rst.lastBlocked

/-- The repetition loop (lines 368-496) with `rem` repetitions left
(`idx_rev = rem` on each iteration, counting down to 1): warm-up
repetitions (`idx_rev != 1`) send stdout, stderr and the alignment output
to `/dev/null`; the final repetition keeps stdout/stderr and, unless
`--sam-dev-null`, the alignment output.  Every repetition touches the
`JOIN` sentinel and one outcome sentinel; a `FAIL` outcome raises
immediately when `--stop-on-fail` is set. -/
def repLoop (A : SweepArgs) (oracle : Nat → Outcome) (name : String)
    (nthreads : Nat) : Nat → Nat → List Ev × Nat × Option SweepErr
  | ctr, 0 => ([], ctr, none)
  | ctr, rem + 1 =>
    let idxRev := rem + 1
    let warm := idxRev != 1
    let outc := oracle ctr
    let ev := Ev.attempt name nthreads idxRev warm warm
      (warm || A.samDevNull) true outc
    if outc = .fail ∧ A.stopOnFail then ([ev], ctr + 1, some .stopOnFail)
    else
      match repLoop A oracle name nthreads (ctr + 1) rem with
      | (evs, ctr', err) => (ev :: evs, ctr', err)

/-- One iteration of the inner entry loop (lines 325-496). -/
def entryStep (A : SweepArgs) (idxOk : String → Bool)
    (oracle : Nat → Outcome) (nthreads : Nat) (e : SweepEntry)
    (st : CtlState) (rst : RegimeState) (ctr : Nat) : StepOut :=
  -- lines 333-339: redo = 1; first verification of a tool (its boolean
  -- result is discarded) forces redo = 2
  let newTool := !(st.indexesVerified.contains e.tool)
  let evVerify := if newTool then [Ev.verifyIdx e.tool (idxOk e.tool)]
    else []
  let verified := if newTool then e.tool :: st.indexesVerified
    else st.indexesVerified
  let redo1 := if newTool then 2 else 1
  if skipsEntry nthreads e then
    { evs := evVerify, st := { st with indexesVerified := verified },
      rst := rst, ctr := ctr, redoUsed := none, err := none }
  else
    let blocked := blockedOf e.alignerArgs
    if regimeChanged rst e.mpMt blocked then
      let evPurge := if st.readSetPresent then [Ev.purgeReads] else []
      let evPrep := [Ev.prepareReads nthreads e.mpMt blocked]
      if blocked ∧ 0 < e.mpMt then
        -- prepare_reads raises before read_set is assigned
        { evs := evVerify ++ evPurge ++ evPrep,
          st := { indexesVerified := verified,
                  readSetPresent := st.readSetPresent },
          rst := rst, ctr := ctr, redoUsed := none, err := some .blockedMp }
      else
        let nprocess := if e.mpMt = 0 then 1 else nthreads / e.mpMt
        if nprocess < 1 then
          { evs := evVerify ++ evPurge ++ evPrep,
            st := { indexesVerified := verified, readSetPresent := true },
            rst := ⟨some e.mpMt, blocked⟩, ctr := ctr, redoUsed := none,
            err := some .badNprocess }
        else
          match repLoop A oracle e.name nthreads ctr 2 with
          | (evs, ctr', err) =>
            { evs := evVerify ++ evPurge ++ evPrep ++ evs,
              st := { indexesVerified := verified, readSetPresent := true },
              rst := ⟨some e.mpMt, blocked⟩, ctr := ctr',
              redoUsed := some 2, err := err }
    else
      let nprocess := if e.mpMt = 0 then 1 else nthreads / e.mpMt
      if nprocess < 1 then
        { evs := evVerify,
          st := { st with indexesVerified := verified },
          rst := ⟨rst.lastMpMt, blocked⟩, ctr := ctr, redoUsed := none,
          err := some .badNprocess }
      else
        match repLoop A oracle e.name nthreads ctr redo1 with
        | (evs, ctr', err) =>
          { evs := evVerify ++ evs,
            st := { st with indexesVerified := verified },
            rst := ⟨rst.lastMpMt, blocked⟩, ctr := ctr',
            redoUsed := some redo1, err := err }

/-- The inner loop over catalog entries at one thread count, stopping at
the first raised error. -/
def runEntries (A : SweepArgs) (idxOk : String → Bool)
    (oracle : Nat → Outcome) (nthreads : Nat) :
    List SweepEntry → CtlState → RegimeState → Nat →
    List Ev × CtlState × Nat × Option SweepErr
  | [], st, _, ctr => ([], st, ctr, none)
  | e :: rest, st, rst, ctr =>
    let o := entryStep A idxOk oracle nthreads e st rst ctr
    match o.err with
    | some err => (o.evs, o.st, o.ctr, some err)
    | none =>
      match runEntries A idxOk oracle nthreads rest o.st o.rst o.ctr with
      | (evs, st', ctr', err) => (o.evs ++ evs, st', ctr', err)

/-- The outer loop over the thread-count series; the regime tracker is
re-initialised to `(None, False)` for every thread count (line 322). -/
def runSeries (A : SweepArgs) (idxOk : String → Bool)
    (oracle : Nat → Outcome) (entries : List SweepEntry) :
    List Nat → CtlState → Nat →
    List Ev × CtlState × Nat × Option SweepErr
  | [], st, ctr => ([], st, ctr, none)
  | n :: rest, st, ctr =>
    match runEntries A idxOk oracle n entries st ⟨none, false⟩ ctr with
    | (evs, st', ctr', some e) => (evs, st', ctr', some e)
    | (evs, st', ctr', none) =>
      match runSeries A idxOk oracle entries rest st' ctr' with
      | (evs2, st'', ctr'', err2) => (evs ++ evs2, st'', ctr'', err2)

structure SweepResult where
  evs : List Ev
  err : Option SweepErr
  /-- Did control reach the sweep-end purge code (lines 498-502)?  It is
  not inside any `try`/`finally`, so a raised error bypasses it. -/
  finalPurgeRan : Bool
  /-- Is `read_set` still not `None` when the sweep terminates? -/
  readSetPresent : Bool
deriving Repr, DecidableEq

/-- The experiment phase of `go`: run the double loop starting with no
verified indexes and `read_set = None`; on normal completion the trailing
purge at lines 498-502 deletes the remaining read-set files; a raised
error propagates out of `go` without reaching it. -/
def sweep (A : SweepArgs) (idxOk : String → Bool)
    (oracle : Nat → Outcome) (series : List Nat)
    (entries : List SweepEntry) : SweepResult :=
  match runSeries A idxOk oracle entries series ⟨[], false⟩ 0 with
  | (evs, st, _, some e) =>
    { evs := evs, err := some e, finalPurgeRan := false,
      readSetPresent := st.readSetPresent }
  | (evs, st, _, none) =>
    { evs := evs ++ (if st.readSetPresent then [Ev.purgeReads] else []),
      err := none, finalPurgeRan := true,
      readSetPresent := st.readSetPresent }

example :
    sweep ⟨false, false, true⟩ (fun _ => false) (fun _ => .succeed) [4]
      [⟨"cfg", "bowtie", 0, ""⟩] =
    { evs := [.verifyIdx "bowtie" false, .prepareReads 4 0 false,
              .attempt "cfg" 4 2 true true true true .succeed,
              .attempt "cfg" 4 1 false false false true .succeed,
              .purgeReads],
      err := none, finalPurgeRan := true, readSetPresent := true } := by
  decide

example :
    sweep ⟨true, false, true⟩ (fun _ => true) (fun _ => .fail) [2]
      [⟨"cfg", "bowtie", 0, ""⟩] =
    { evs := [.verifyIdx "bowtie" true, .prepareReads 2 0 false,
              .attempt "cfg" 2 2 true true true true .fail],
      err := some .stopOnFail, finalPurgeRan := false,
      readSetPresent := true } := by
  decide

/-- Claim C2: (code bug): `go` calls `verify_index` (line 337) but discards
its boolean result, so an incomplete index does *not* abort the sweep.
Concretely: with an empty filesystem, `verify_index("idx", "bowtie")`
returns `False`, yet the sweep records the discarded `False`, partitions
reads, runs both repetitions of the entry to completion and finishes with
no error — the claim (and the spec) say an index-verification failure is
fatal before any run starts. -/
theorem index_verification_failure_ignored :
    verify_index (fun _ => false) "idx" "bowtie" = some false ∧
    sweep ⟨false, false, true⟩
      (fun t => (verify_index (fun _ => false) "idx" t).getD false)
      (fun _ => .succeed) [4] [⟨"cfg", "bowtie", 0, ""⟩] =
    { evs := [.verifyIdx "bowtie" false, .prepareReads 4 0 false,
              .attempt "cfg" 4 2 true true true true .succeed,
              .attempt "cfg" 4 1 false false false true .succeed,
              .purgeReads],
      err := none, finalPurgeRan := true, readSetPresent := true } := by
  refine ⟨by decide, by decide⟩

/-- Claim C3: counterexample: with index verification forcing 2 repetitions,
the warm-up repetition (`idx_rev = 2`) sends stdout, stderr and the
alignment output to `/dev/null` — but it still touches a `JOIN` sentinel
and a `SUCCEED` outcome sentinel (under the run name that encodes
repetition index 2), refuting "the warm-up repetition produces no sentinel
files". -/
theorem warmup_writes_sentinels_counterexample :
    (sweep ⟨false, false, true⟩ (fun _ => true) (fun _ => .succeed) [2]
      [⟨"warm", "bowtie", 0, ""⟩]).evs =
      [.verifyIdx "bowtie" true, .prepareReads 2 0 false,
       .attempt "warm" 2 2 true true true true .succeed,
       .attempt "warm" 2 1 false false false true .succeed,
       .purgeReads] ∧
    Ev.attempt "warm" 2 2 true true true true .succeed ∈
      (sweep ⟨false, false, true⟩ (fun _ => true) (fun _ => .succeed) [2]
        [⟨"warm", "bowtie", 0, ""⟩]).evs := by
  refine ⟨by decide, by decide⟩

lemma repLoop_events (A : SweepArgs) (oracle : Nat → Outcome)
    (name : String) (nthreads : Nat) :
    ∀ rem ctr, ∀ ev ∈ (repLoop A oracle name nthreads ctr rem).1,
      ∃ idxRev outc, 1 ≤ idxRev ∧ idxRev ≤ rem ∧
        ev = .attempt name nthreads idxRev (idxRev != 1) (idxRev != 1)
          ((idxRev != 1) || A.samDevNull) true outc := by
  intro rem
  induction rem with
  | zero => intro ctr ev hev; simp [repLoop] at hev
  | succ rem ih =>
    intro ctr ev hev
    by_cases hstop : oracle ctr = Outcome.fail ∧ A.stopOnFail = true
    · simp only [repLoop, if_pos hstop, List.mem_singleton] at hev
      exact ⟨rem + 1, oracle ctr, by omega, le_refl _, hev⟩
    · simp only [repLoop, if_neg hstop] at hev
      rcases List.mem_cons.mp hev with hh | ht
      · exact ⟨rem + 1, oracle ctr, by omega, le_refl _, hh⟩
      · obtain ⟨idxRev, outc, h1, h2, h3⟩ := ih (ctr + 1) ev ht
        exact ⟨idxRev, outc, h1, by omega, h3⟩

lemma repLoop_length (A : SweepArgs) (oracle : Nat → Outcome)
    (name : String) (nthreads : Nat) :
    ∀ rem ctr, (repLoop A oracle name nthreads ctr rem).2.2 = none →
      (repLoop A oracle name nthreads ctr rem).1.length = rem := by
  intro rem
  induction rem with
  | zero => intro ctr _; rfl
  | succ rem ih =>
    intro ctr h
    by_cases hstop : oracle ctr = Outcome.fail ∧ A.stopOnFail = true
    · simp [repLoop, if_pos hstop] at h
    · simp only [repLoop, if_neg hstop] at h ⊢
      simp only [List.length_cons]
      rw [ih (ctr + 1) h]

lemma nprocess_ge_one (nthreads : Nat) (e : SweepEntry)
    (hskip : skipsEntry nthreads e = false) (hn : 1 ≤ nthreads) :
    ¬((if e.mpMt = 0 then 1 else nthreads / e.mpMt) < 1) := by
  by_cases hm : e.mpMt = 0
  · simp [hm]
  · have hpos : 0 < e.mpMt := Nat.pos_of_ne_zero hm
    have hdvd : nthreads % e.mpMt = 0 := by
      simp only [skipsEntry, Bool.and_eq_false_iff, bne_eq_false_iff_eq,
        bne, Bool.not_eq_false', beq_iff_eq] at hskip
      rcases hskip with h | h
      · exact absurd h hm
      · exact h
    have hle : e.mpMt ≤ nthreads := by
      by_contra hlt
      push_neg at hlt
      rw [Nat.mod_eq_of_lt hlt] at hdvd
      omega
    simp only [hm, if_false]
    have := (Nat.one_le_div_iff hpos).mpr hle
    omega

/-- Claim C3: (amended): the repetition count is 1 by default and 2 exactly
when index verification or read preparation just occurred for that pair;
every warm-up repetition (`idx_rev ≠ 1`) sends stdout, stderr and the
alignment output to a discard sink while the final repetition keeps
stdout/stderr (and the alignment output unless `--sam-dev-null`); but
*every* repetition — warm-up included — touches a `JOIN` sentinel and an
outcome sentinel, under a run name encoding its repetition index; only the
output streams of the warm-up are discarded, not its sentinel files. -/
theorem repetition_and_sink_policy :
    (∀ (A : SweepArgs) (oracle : Nat → Outcome) (name : String)
      (nthreads rem ctr : Nat),
      ∀ ev ∈ (repLoop A oracle name nthreads ctr rem).1,
        ∃ idxRev outc, 1 ≤ idxRev ∧ idxRev ≤ rem ∧
          ev = .attempt name nthreads idxRev (idxRev != 1) (idxRev != 1)
            ((idxRev != 1) || A.samDevNull) true outc) ∧
    (∀ (A : SweepArgs) (oracle : Nat → Outcome) (name : String)
      (nthreads rem ctr : Nat),
      (repLoop A oracle name nthreads ctr rem).2.2 = none →
      (repLoop A oracle name nthreads ctr rem).1.length = rem) ∧
    (∀ (A : SweepArgs) (idxOk : String → Bool) (oracle : Nat → Outcome)
      (nthreads : Nat) (e : SweepEntry) (st : CtlState)
      (rst : RegimeState) (ctr : Nat),
      skipsEntry nthreads e = false →
      ¬(blockedOf e.alignerArgs = true ∧ 0 < e.mpMt) →
      1 ≤ nthreads →
      (entryStep A idxOk oracle nthreads e st rst ctr).redoUsed =
        some (if (!(st.indexesVerified.contains e.tool))
            || regimeChanged rst e.mpMt (blockedOf e.alignerArgs)
          then 2 else 1)) := by
  refine ⟨fun A oracle name nthreads rem ctr =>
      repLoop_events A oracle name nthreads rem ctr,
    fun A oracle name nthreads rem ctr =>
      repLoop_length A oracle name nthreads rem ctr, ?_⟩
  intro A idxOk oracle nthreads e st rst ctr hskip hbl hn
  have hnp := nprocess_ge_one nthreads e hskip hn
  by_cases hch : regimeChanged rst e.mpMt (blockedOf e.alignerArgs) = true
  · simp only [entryStep, hskip, Bool.false_eq_true, if_false, hch,
      if_true, if_neg hbl, if_neg hnp, hch, Bool.or_true]
  · have hch' : regimeChanged rst e.mpMt (blockedOf e.alignerArgs)
        = false := by
      cases h : regimeChanged rst e.mpMt (blockedOf e.alignerArgs)
      · rfl
      · exact absurd h hch
    simp only [entryStep, hskip, Bool.false_eq_true, if_false, hch',
      if_neg hnp, Bool.or_false]

/-- Claim C3: witness: the policy applied concretely — the events of a
2-repetition loop have the stated shape, its length is 2, and an entry
with a fresh tool and reset tracker gets `redo = 2`. -/
theorem repetition_and_sink_policy_witness :
    (∃ idxRev outc, 1 ≤ idxRev ∧ idxRev ≤ 2 ∧
      Ev.attempt "c" 4 2 true true true true Outcome.succeed =
        .attempt "c" 4 idxRev (idxRev != 1) (idxRev != 1)
          ((idxRev != 1) || false) true outc) ∧
    (repLoop ⟨false, false, true⟩ (fun _ => .succeed) "c" 4 0 2).1.length
      = 2 ∧
    (entryStep ⟨false, false, true⟩ (fun _ => true) (fun _ => .succeed) 4
      ⟨"c", "bowtie", 0, ""⟩ ⟨[], false⟩ ⟨none, false⟩ 0).redoUsed
      = some 2 :=
  ⟨repetition_and_sink_policy.1 ⟨false, false, true⟩ (fun _ => .succeed)
      "c" 4 2 0 (Ev.attempt "c" 4 2 true true true true .succeed)
      (by decide),
   repetition_and_sink_policy.2.1 ⟨false, false, true⟩ (fun _ => .succeed)
      "c" 4 2 0 (by decide),
   repetition_and_sink_policy.2.2 ⟨false, false, true⟩ (fun _ => true)
      (fun _ => .succeed) 4 ⟨"c", "bowtie", 0, ""⟩ ⟨[], false⟩
      ⟨none, false⟩ 0 (by decide) (by decide) (by decide)⟩

/-- Claim C4: counterexample: with `--stop-on-fail` set and the (warm-up)
attempt failing, the sweep aborts with a raised error: the read set is
still present, the sweep-end purge code (which is not inside any
`try`/`finally`) is never reached, and no purge event occurs at all — the
read-set files are left behind on this early termination path. -/
theorem sweep_c4_counterexample :
    (sweep ⟨true, false, true⟩ (fun _ => true) (fun _ => .fail) [2]
      [⟨"cfg", "bowtie", 0, ""⟩]).err = some .stopOnFail ∧
    (sweep ⟨true, false, true⟩ (fun _ => true) (fun _ => .fail) [2]
      [⟨"cfg", "bowtie", 0, ""⟩]).readSetPresent = true ∧
    (sweep ⟨true, false, true⟩ (fun _ => true) (fun _ => .fail) [2]
      [⟨"cfg", "bowtie", 0, ""⟩]).finalPurgeRan = false ∧
    Ev.purgeReads ∉ (sweep ⟨true, false, true⟩ (fun _ => true)
      (fun _ => .fail) [2] [⟨"cfg", "bowtie", 0, ""⟩]).evs := by
  refine ⟨by decide, by decide, by decide, by decide⟩

lemma entryStep_purge_before_prepare (A : SweepArgs)
    (idxOk : String → Bool) (oracle : Nat → Outcome) (nthreads : Nat)
    (e : SweepEntry) (st : CtlState) (rst : RegimeState) (ctr : Nat)
    (hskip : skipsEntry nthreads e = false)
    (hch : regimeChanged rst e.mpMt (blockedOf e.alignerArgs) = true)
    (hp : st.readSetPresent = true) :
    ∃ rest, (entryStep A idxOk oracle nthreads e st rst ctr).evs =
      (if !(st.indexesVerified.contains e.tool) then
        [Ev.verifyIdx e.tool (idxOk e.tool)] else [])
      ++ Ev.purgeReads ::
         Ev.prepareReads nthreads e.mpMt (blockedOf e.alignerArgs) ::
         rest := by
  by_cases hbl : blockedOf e.alignerArgs = true ∧ 0 < e.mpMt
  · obtain ⟨hb1, hb2⟩ := hbl
    rw [hb1] at hch
    exact ⟨[], by simp [entryStep, hskip, hch, hp, hb1, hb2]⟩
  · by_cases hnp : (if e.mpMt = 0 then 1 else nthreads / e.mpMt) < 1
    · have hnp0 : (if e.mpMt = 0 then 1 else nthreads / e.mpMt) = 0 := by
        omega
      exact ⟨[], by simp [entryStep, hskip, hch, hp, hbl, hnp0]⟩
    · have hnp0 : ¬((if e.mpMt = 0 then 1 else nthreads / e.mpMt) = 0) := by
        omega
      exact ⟨(repLoop A oracle e.name nthreads ctr 2).1,
        by simp [entryStep, hskip, hch, hp, hbl, hnp0]⟩

/-- Claim C4: (amended): the read set is purged — immediately before the
Partitioner is re-invoked — whenever the active `(threadsPerProcess,
blocked)` pair changes between successive sweep steps; and the sweep-end
purge of the remaining read-set files runs on *normal* completion only:
the purge code after the loops is not protected by `try`/`finally`, so a
raised error (a stop-on-fail abort or a fatal setup error) terminates the
sweep without it (see the counterexample). -/
theorem readset_purge_policy :
    (∀ (A : SweepArgs) (idxOk : String → Bool) (oracle : Nat → Outcome)
      (nthreads : Nat) (e : SweepEntry) (st : CtlState)
      (rst : RegimeState) (ctr : Nat),
      skipsEntry nthreads e = false →
      regimeChanged rst e.mpMt (blockedOf e.alignerArgs) = true →
      st.readSetPresent = true →
      ∃ pre rest, (entryStep A idxOk oracle nthreads e st rst ctr).evs =
        pre ++ Ev.purgeReads ::
          Ev.prepareReads nthreads e.mpMt (blockedOf e.alignerArgs) ::
          rest) ∧
    (∀ (A : SweepArgs) (idxOk : String → Bool) (oracle : Nat → Outcome)
      (series : List Nat) (entries : List SweepEntry),
      (sweep A idxOk oracle series entries).err = none →
      (sweep A idxOk oracle series entries).finalPurgeRan = true ∧
      ((sweep A idxOk oracle series entries).readSetPresent = true →
        ∃ evs', (sweep A idxOk oracle series entries).evs =
          evs' ++ [Ev.purgeReads])) := by
  constructor
  · intro A idxOk oracle nthreads e st rst ctr hskip hch hp
    obtain ⟨rest, hrest⟩ := entryStep_purge_before_prepare A idxOk oracle
      nthreads e st rst ctr hskip hch hp
    exact ⟨_, rest, hrest⟩
  · intro A idxOk oracle series entries h
    rcases hr : runSeries A idxOk oracle entries series ⟨[], false⟩ 0 with
      ⟨evs, st, ctr, err⟩
    cases err with
    | some e => simp [sweep, hr] at h
    | none =>
      by_cases hrsp : st.readSetPresent = true
      · refine ⟨by simp [sweep, hr], fun _ => ⟨evs, ?_⟩⟩
        simp [sweep, hr, hrsp]
      · have hrsp' : st.readSetPresent = false := by
          cases hv : st.readSetPresent
          · rfl
          · exact absurd hv hrsp
        refine ⟨by simp [sweep, hr], fun hc => ?_⟩
        simp [sweep, hr, hrsp'] at hc

/-- Claim C4: witness: the purge policy applied concretely — a regime change
with a read set present purges right before re-partitioning, and a sweep
that completes normally ends with the final purge. -/
theorem readset_purge_policy_witness :
    (∃ pre rest,
      (entryStep ⟨false, false, true⟩ (fun _ => true) (fun _ => .succeed)
        4 ⟨"c", "bowtie", 2, ""⟩ ⟨["bowtie"], true⟩ ⟨none, false⟩ 0).evs =
      pre ++ Ev.purgeReads :: Ev.prepareReads 4 2 false :: rest) ∧
    ((sweep ⟨false, false, true⟩ (fun _ => true) (fun _ => .succeed) [4]
        [⟨"c", "bowtie", 0, ""⟩]).finalPurgeRan = true ∧
      ((sweep ⟨false, false, true⟩ (fun _ => true) (fun _ => .succeed) [4]
          [⟨"c", "bowtie", 0, ""⟩]).readSetPresent = true →
        ∃ evs', (sweep ⟨false, false, true⟩ (fun _ => true)
          (fun _ => .succeed) [4] [⟨"c", "bowtie", 0, ""⟩]).evs =
          evs' ++ [Ev.purgeReads])) :=
  ⟨readset_purge_policy.1 ⟨false, false, true⟩ (fun _ => true)
      (fun _ => .succeed) 4 ⟨"c", "bowtie", 2, ""⟩ ⟨["bowtie"], true⟩
      ⟨none, false⟩ 0 (by decide) (by decide) (by decide),
   readset_purge_policy.2 ⟨false, false, true⟩ (fun _ => true)
      (fun _ => .succeed) [4] [⟨"c", "bowtie", 0, ""⟩] (by decide)⟩

lemma entryStep_skipped (A : SweepArgs) (idxOk : String → Bool)
    (oracle : Nat → Outcome) (nthreads : Nat) (e : SweepEntry)
    (st : CtlState) (rst : RegimeState) (ctr : Nat)
    (hskip : skipsEntry nthreads e = true) :
    (entryStep A idxOk oracle nthreads e st rst ctr).rst = rst ∧
    (entryStep A idxOk oracle nthreads e st rst ctr).st.readSetPresent
      = st.readSetPresent ∧
    (entryStep A idxOk oracle nthreads e st rst ctr).redoUsed = none ∧
    (entryStep A idxOk oracle nthreads e st rst ctr).err = none ∧
    (entryStep A idxOk oracle nthreads e st rst ctr).ctr = ctr := by
  simp [entryStep, hskip]

lemma regimeChanged_reset (mpMt : Nat) (blocked lastBlocked : Bool) :
    regimeChanged ⟨none, lastBlocked⟩ mpMt blocked = true := by
  simp [regimeChanged]

lemma entryStep_first_nonskipped (A : SweepArgs) (idxOk : String → Bool)
    (oracle : Nat → Outcome) (nthreads : Nat) (e : SweepEntry)
    (st : CtlState) (ctr : Nat)
    (hskip : skipsEntry nthreads e = false)
    (hbl : ¬(blockedOf e.alignerArgs = true ∧ 0 < e.mpMt))
    (hn : 1 ≤ nthreads) :
    (entryStep A idxOk oracle nthreads e st ⟨none, false⟩ ctr).redoUsed
      = some 2 ∧
    Ev.prepareReads nthreads e.mpMt (blockedOf e.alignerArgs) ∈
      (entryStep A idxOk oracle nthreads e st ⟨none, false⟩ ctr).evs ∧
    (st.readSetPresent = true → Ev.purgeReads ∈
      (entryStep A idxOk oracle nthreads e st ⟨none, false⟩ ctr).evs) := by
  have hch := regimeChanged_reset e.mpMt (blockedOf e.alignerArgs) false
  have hnp := nprocess_ge_one nthreads e hskip hn
  have hnp0 : ¬((if e.mpMt = 0 then 1 else nthreads / e.mpMt) = 0) := by
    omega
  refine ⟨?_, ?_, ?_⟩
  · simp [entryStep, hskip, hch, hbl, hnp0]
  · simp [entryStep, hskip, hch, hbl, hnp0]
  · intro hp
    simp [entryStep, hskip, hch, hbl, hnp0, hp]

lemma runEntries_first_nonskipped (A : SweepArgs) (idxOk : String → Bool)
    (oracle : Nat → Outcome) (nthreads : Nat) (e : SweepEntry)
    (rest : List SweepEntry)
    (hskip : skipsEntry nthreads e = false)
    (hbl : ¬(blockedOf e.alignerArgs = true ∧ 0 < e.mpMt))
    (hn : 1 ≤ nthreads) :
    ∀ (pre : List SweepEntry), (∀ e' ∈ pre, skipsEntry nthreads e' = true) →
      ∀ (st : CtlState) (ctr : Nat),
      Ev.prepareReads nthreads e.mpMt (blockedOf e.alignerArgs) ∈
        (runEntries A idxOk oracle nthreads (pre ++ e :: rest) st
          ⟨none, false⟩ ctr).1 := by
  intro pre
  induction pre with
  | nil =>
    intro _ st ctr
    have hmem := (entryStep_first_nonskipped A idxOk oracle nthreads e st
      ctr hskip hbl hn).2.1
    simp only [List.nil_append, runEntries]
    cases he : (entryStep A idxOk oracle nthreads e st ⟨none, false⟩
        ctr).err with
    | some err => simpa [he] using hmem
    | none =>
      simp only [he]
      exact List.mem_append_left _ hmem
  | cons e' pre ih =>
    intro hpre st ctr
    have hsk' : skipsEntry nthreads e' = true := hpre e' (by simp)
    obtain ⟨hrst, _, _, herr, _⟩ := entryStep_skipped A idxOk oracle
      nthreads e' st ⟨none, false⟩ ctr hsk'
    simp only [List.cons_append, runEntries, herr]
    rw [hrst]
    exact List.mem_append_right _
      (ih (fun x hx => hpre x (by simp [hx]))
        (entryStep A idxOk oracle nthreads e' st ⟨none, false⟩ ctr).st
        (entryStep A idxOk oracle nthreads e' st ⟨none, false⟩ ctr).ctr)

/-- Claim C10: (confirmed): the regime tracker is reset to `(None, False)`
at the start of each thread count, so: (1) a skipped catalog entry leaves
the tracker, read-set state and error state untouched; (2) with the reset
tracker, the first non-skipped entry always takes the regime-change
branch — it purges the previous read set when one is present, invokes the
Partitioner for the new thread count, and forces a 2-repetition warm-up;
(3) lifted to the entry loop: whatever the preceding (all-skipped) entries
and carried state, the Partitioner is re-invoked for the new thread count
before the first non-skipped entry runs — so a read set sized for one
total thread count is never reused for a different one. -/
theorem threadcount_reset_forces_reprepare :
    (∀ (A : SweepArgs) (idxOk : String → Bool) (oracle : Nat → Outcome)
      (nthreads : Nat) (e : SweepEntry) (st : CtlState)
      (rst : RegimeState) (ctr : Nat),
      skipsEntry nthreads e = true →
      (entryStep A idxOk oracle nthreads e st rst ctr).rst = rst ∧
      (entryStep A idxOk oracle nthreads e st rst ctr).st.readSetPresent
        = st.readSetPresent ∧
      (entryStep A idxOk oracle nthreads e st rst ctr).redoUsed = none ∧
      (entryStep A idxOk oracle nthreads e st rst ctr).err = none) ∧
    (∀ (A : SweepArgs) (idxOk : String → Bool) (oracle : Nat → Outcome)
      (nthreads : Nat) (e : SweepEntry) (st : CtlState) (ctr : Nat),
      skipsEntry nthreads e = false →
      ¬(blockedOf e.alignerArgs = true ∧ 0 < e.mpMt) →
      1 ≤ nthreads →
      (entryStep A idxOk oracle nthreads e st ⟨none, false⟩ ctr).redoUsed
        = some 2 ∧
      Ev.prepareReads nthreads e.mpMt (blockedOf e.alignerArgs) ∈
        (entryStep A idxOk oracle nthreads e st ⟨none, false⟩ ctr).evs ∧
      (st.readSetPresent = true → Ev.purgeReads ∈
        (entryStep A idxOk oracle nthreads e st ⟨none, false⟩ ctr).evs)) ∧
    (∀ (A : SweepArgs) (idxOk : String → Bool) (oracle : Nat → Outcome)
      (nthreads : Nat) (pre : List SweepEntry) (e : SweepEntry)
      (rest : List SweepEntry) (st : CtlState) (ctr : Nat),
      (∀ e' ∈ pre, skipsEntry nthreads e' = true) →
      skipsEntry nthreads e = false →
      ¬(blockedOf e.alignerArgs = true ∧ 0 < e.mpMt) →
      1 ≤ nthreads →
      Ev.prepareReads nthreads e.mpMt (blockedOf e.alignerArgs) ∈
        (runEntries A idxOk oracle nthreads (pre ++ e :: rest) st
          ⟨none, false⟩ ctr).1) := by
  refine ⟨?_, ?_, ?_⟩
  · intro A idxOk oracle nthreads e st rst ctr hskip
    obtain ⟨h1, h2, h3, h4, _⟩ := entryStep_skipped A idxOk oracle nthreads
      e st rst ctr hskip
    exact ⟨h1, h2, h3, h4⟩
  · intro A idxOk oracle nthreads e st ctr hskip hbl hn
    exact entryStep_first_nonskipped A idxOk oracle nthreads e st ctr
      hskip hbl hn
  · intro A idxOk oracle nthreads pre e rest st ctr hpre hskip hbl hn
    exact runEntries_first_nonskipped A idxOk oracle nthreads e rest
      hskip hbl hn pre hpre st ctr

/-- Claim C10: witness: at thread count 4, an entry with
`threadsPerProcess = 2` skipped at the previous count's tail is followed
by the first non-skipped entry re-partitioning with `redo = 2`; concretely,
a skipped entry (`mpMt = 3` at 4 threads) leaves the tracker untouched,
and the loop on `[skipped, active]` re-invokes the Partitioner. -/
theorem threadcount_reset_forces_reprepare_witness :
    ((entryStep ⟨false, false, true⟩ (fun _ => true) (fun _ => .succeed) 4
        ⟨"skip3", "bowtie", 3, ""⟩ ⟨["bowtie"], true⟩ ⟨none, false⟩ 0).rst
        = ⟨none, false⟩ ∧
      (entryStep ⟨false, false, true⟩ (fun _ => true) (fun _ => .succeed) 4
        ⟨"skip3", "bowtie", 3, ""⟩ ⟨["bowtie"], true⟩ ⟨none, false⟩
        0).st.readSetPresent = true ∧
      (entryStep ⟨false, false, true⟩ (fun _ => true) (fun _ => .succeed) 4
        ⟨"skip3", "bowtie", 3, ""⟩ ⟨["bowtie"], true⟩ ⟨none, false⟩
        0).redoUsed = none ∧
      (entryStep ⟨false, false, true⟩ (fun _ => true) (fun _ => .succeed) 4
        ⟨"skip3", "bowtie", 3, ""⟩ ⟨["bowtie"], true⟩ ⟨none, false⟩
        0).err = none) ∧
    Ev.prepareReads 4 2 false ∈
      (runEntries ⟨false, false, true⟩ (fun _ => true) (fun _ => .succeed)
        4 [⟨"skip3", "bowtie", 3, ""⟩, ⟨"active", "bowtie", 2, ""⟩]
        ⟨["bowtie"], true⟩ ⟨none, false⟩ 0).1 :=
  ⟨threadcount_reset_forces_reprepare.1 ⟨false, false, true⟩
      (fun _ => true) (fun _ => .succeed) 4 ⟨"skip3", "bowtie", 3, ""⟩
      ⟨["bowtie"], true⟩ ⟨none, false⟩ 0 (by decide),
   threadcount_reset_forces_reprepare.2.2 ⟨false, false, true⟩
      (fun _ => true) (fun _ => .succeed) 4 [⟨"skip3", "bowtie", 3, ""⟩]
      ⟨"active", "bowtie", 2, ""⟩ [] ⟨["bowtie"], true⟩ 0
      (by decide) (by decide) (by decide) (by decide)⟩

end Master
